import Mathlib

/-!
# Verification of the validation & clustering engine (`Validation_Agent`)

A shallow embedding of `src/agents/analyzer_agent.py`. Instants are modelled
as integers (seconds since an arbitrary epoch); a Python `datetime` is a pair
of an instant and a tz-awareness flag. The external best-effort timestamp
parser (pandas / `strptime` chain) is an abstract parameter
`parse : String → Option PyDatetime`; the external primary clustering
capability (sklearn TF-IDF + KMeans) is an abstract parameter; `none` models
the capability being unavailable or raising, in which case the deterministic
fallback runs. `now` (UTC current instant) is a parameter threaded through
one synchronous engine invocation.
-/

namespace PainMining

/-- Model of a Python `datetime`: an instant (seconds) plus whether the value
is timezone-aware. `replace(tzinfo=timezone.utc)` keeps the instant and sets
the flag. -/
structure PyDatetime where
  instant : Int
  aware : Bool
  deriving Repr, DecidableEq

/-- `datetime.now(timezone.utc)` at model time `now`: tz-aware. -/
def nowUtc (now : Int) : PyDatetime := ⟨now, true⟩

/-- A structured raw record: the optional fields the agent reads
(`text`/`snippet`/`quote`/`content`, `timestamp`/`date`/`created_at`,
`source`, `url`). `none` models an absent key. -/
structure RawDict where
  text : Option String := none
  snippet : Option String := none
  quote : Option String := none
  content : Option String := none
  timestamp : Option String := none
  date : Option String := none
  created_at : Option String := none
  source : Option String := none
  url : Option String := none
  deriving Repr, DecidableEq

/-- A raw input item: either a bare string or a structured record
(`_normalize` returns `None` for any other runtime type, which we omit). -/
inductive RawEntry where
  | str (s : String)
  | dict (d : RawDict)
  deriving Repr, DecidableEq

/-- Python truthiness of an optional string: `None` and `""` are falsy. -/
def truthy : Option String → Bool
  | none => false
  | some s => s ≠ ""

/-- Python `a or b` on optional strings. -/
def pyOr (a b : Option String) : Option String :=
  if truthy a then a else b

/-- The canonical normalized record `{quote, source, url, timestamp}`. -/
structure NormalizedEntry where
  quote : String
  source : String
  url : Option String
  timestamp : PyDatetime
  deriving Repr, DecidableEq

/-- `Validation_Agent._parse_timestamp`. `parse` abstracts the external
best-effort chain (pandas parser, then the explicit `strptime` formats); it
returns the parsed `datetime` (possibly naive) or `none` when every attempt
fails. The source defaults to `datetime.now(timezone.utc)` when `ts` is falsy
or unparsable, and forces tz-awareness on a naive parse result. -/
def parse_timestamp (parse : String → Option PyDatetime) (now : Int)
    (ts : Option String) : PyDatetime :=
  if ¬ truthy ts then nowUtc now
  else
    match ts with
    | none => nowUtc now
    | some s =>
      match parse s with
      | none => nowUtc now
      | some dt => if dt.aware then dt else { dt with aware := true }

/-- `Validation_Agent._normalize`: a bare string becomes a record with source
`"unknown"` and timestamp `now`; a dict resolves the quote through the
`text or snippet or quote or content` chain (dropped when falsy) and the
timestamp through `timestamp or date or created_at`. -/
def normalize (parse : String → Option PyDatetime) (now : Int) :
    RawEntry → Option NormalizedEntry
  | .str s => some ⟨s, "unknown", none, nowUtc now⟩
  | .dict d =>
    let q := pyOr d.text (pyOr d.snippet (pyOr d.quote d.content))
    if truthy q then
      let ts := pyOr d.timestamp (pyOr d.date d.created_at)
      some ⟨q.getD "", d.source.getD "unknown", d.url, parse_timestamp parse now ts⟩
    else none

/-- `Validation_Agent.__init__`: `self.max_age_months = max_age_months or
DEFAULT_MAX_AGE_MONTHS`, so `None` and `0` both yield 24. -/
def effectiveMaxAge (maxAgeMonths : Option Int) : Int :=
  match maxAgeMonths with
  | none => 24
  | some v => if v = 0 then 24 else v

/-- Seconds in a day (`timedelta(days=n)` comparison unit). -/
def daySeconds : Int := 86400

/-- `Validation_Agent._passes_recency`: normalize the timestamp to tz-aware,
then accept iff `now - ts <= timedelta(days=max_age_months * 30)`. -/
def passes_recency (now : Int) (maxAgeMonths : Int) (e : NormalizedEntry) : Bool :=
  let ts := e.timestamp
  let ts := if ts.aware then ts else { ts with aware := true }
  let age := now - ts.instant
  age ≤ maxAgeMonths * 30 * daySeconds

/-- ASCII lower-casing of one character (the effect of Python `str.lower`
on the ASCII texts handled here). -/
def lowerChar (c : Char) : Char :=
  if 'A' ≤ c ∧ c ≤ 'Z' then Char.ofNat (c.toNat + 32) else c

/-- Lower-case a string character-wise. -/
def lowerStr (s : String) : String :=
  String.mk (s.toList.map lowerChar)

/-- A regex word character, `\w` (ASCII fragment): letter, digit or `_`. -/
def isWordChar (c : Char) : Bool :=
  c.isAlphanum || c = '_'

/-- One token of the frustration regexes: a literal character, a word
boundary `\b`, or `.*`. -/
inductive RTok where
  | lit (c : Char)
  | bound
  | dotStar
  deriving Repr, DecidableEq

/-- Literal part of a pattern, one `RTok.lit` per character. -/
def litSeq (s : String) : List RTok :=
  s.toList.map RTok.lit

/-- Whether an optional character (text edge = `none`) is a word character. -/
def wordAt : Option Char → Bool
  | none => false
  | some c => isWordChar c

/-- `\b` holds between `prev` and `next` iff exactly one side is a word
character. -/
def boundaryOk (prev next : Option Char) : Bool :=
  wordAt prev != wordAt next

/-- Match a token list against a prefix of `cs`; `prev` is the character just
before `cs` in the full text (`none` at the start). `.*` matches any run of
non-newline characters, as in Python `re`. `re.search` succeeds as soon as
the pattern is exhausted. Structural recursion on a fuel bound (every step
shortens the pattern or the text, so `ts.length + cs.length + 1` fuel always
suffices; see `matchToksAux_fuel`). -/
def matchToksAux : Nat → List RTok → Option Char → List Char → Bool
  | 0, _, _, _ => false
  | _ + 1, [], _, _ => true
  | fuel + 1, .bound :: ts, prev, cs =>
    boundaryOk prev cs.head? && matchToksAux fuel ts prev cs
  | _ + 1, .lit _ :: _, _, [] => false
  | fuel + 1, .lit c :: ts, _, d :: cs => c == d && matchToksAux fuel ts (some d) cs
  | fuel + 1, .dotStar :: ts, prev, cs =>
    matchToksAux fuel ts prev cs ||
      (match cs with
       | [] => false
       | d :: cs2 => d ≠ '\n' && matchToksAux fuel (.dotStar :: ts) (some d) cs2)

/-- Match a token list at the current position, with sufficient fuel. -/
def matchToks (ts : List RTok) (prev : Option Char) (cs : List Char) : Bool :=
  matchToksAux (ts.length + cs.length + 1) ts prev cs

/-- `re.search`: try to match at every start position of the text. -/
def searchFrom (pat : List RTok) (prev : Option Char) (cs : List Char) : Bool :=
  matchToks pat prev cs ||
    (match cs with
     | [] => false
     | d :: cs2 => searchFrom pat (some d) cs2)

/-- `re.search(pat, txt)` as a Boolean. -/
def reSearch (pat : List RTok) (txt : String) : Bool :=
  searchFrom pat none txt.toList

/-- `Validation_Agent.FRUSTRATION_PATTERNS`, one entry per source regex, in
source order. -/
def FRUSTRATION_PATTERNS : List (List RTok) :=
  [ [.bound] ++ litSeq "i hate" ++ [.bound],
    [.bound] ++ litSeq "so slow" ++ [.bound],
    [.bound] ++ litSeq "so frustrating" ++ [.bound],
    [.bound] ++ litSeq "this is useless" ++ [.bound],
    [.bound] ++ litSeq "doesn\x27t work" ++ [.bound],
    [.bound] ++ litSeq "not working" ++ [.bound],
    [.bound] ++ litSeq "never works" ++ [.bound],
    [.bound] ++ litSeq "waste of time" ++ [.bound],
    [.bound] ++ litSeq "broken" ++ [.bound],
    [.bound] ++ litSeq "can\x27t " ++ [.dotStar, .bound] ]

/-- `Validation_Agent._is_frustration`: lower-case the text and search every
pattern. -/
def is_frustration (text : String) : Bool :=
  let txt := lowerStr text
  FRUSTRATION_PATTERNS.any (fun pat => reSearch pat txt)

/-- Maximal runs of word characters of a character list (the matches of
`re.findall` for the pattern `\w{4,}` are exactly the maximal runs of length
at least 4: the greedy quantifier takes each whole run). `cur` is the
reversed run in progress. -/
def wordRuns (cur : List Char) : List Char → List (List Char)
  | [] => if cur = [] then [] else [cur.reverse]
  | c :: cs =>
    if isWordChar c then wordRuns (c :: cur) cs
    else if cur = [] then wordRuns [] cs
    else cur.reverse :: wordRuns [] cs

/-- `set(re.findall(r"\w{4,}", q.lower()))` as a token list; only membership
matters downstream, so a list models the Python set. -/
def quoteTokens (q : String) : List String :=
  ((wordRuns [] (lowerStr q).toList).filter (fun r => 4 ≤ r.length)).map String.mk

/-- Python `tokens & b` is truthy iff the two token sets intersect. -/
def intersects (tokens bucket : List String) : Bool :=
  tokens.any (fun t => bucket.contains t)

/-- Index of the first bucket whose token set intersects `tokens`
(the `for i, b in enumerate(buckets)` scan). -/
def findBucket (tokens : List String) : List (List String) → Option Nat
  | [] => none
  | b :: bs =>
    if intersects tokens b then some 0
    else (findBucket tokens bs).map (· + 1)

/-- Merge `tokens` into the bucket at index `i` (`b.update(tokens)`; only
membership in the bucket matters downstream). -/
def mergeAt (tokens : List String) : Nat → List (List String) → List (List String)
  | _, [] => []
  | 0, b :: bs => (b ++ tokens.filter (fun t => ¬ b.contains t)) :: bs
  | i + 1, b :: bs => b :: mergeAt tokens i bs

/-- The fallback clustering loop of `Validation_Agent._cluster_quotes`:
assign each quote to the first intersecting bucket (merging its tokens),
else open a new bucket; the cluster id is the bucket index. -/
def fallbackLoop (buckets : List (List String)) : List String → List Nat
  | [] => []
  | q :: rest =>
    let tokens := quoteTokens q
    match findBucket tokens buckets with
    | some i => i :: fallbackLoop (mergeAt tokens i buckets) rest
    | none => buckets.length :: fallbackLoop (buckets ++ [tokens]) rest

/-- Fallback clustering, starting from no buckets. -/
def clusterFallback (quotes : List String) : List Nat :=
  fallbackLoop [] quotes

/-- Modelled from the spec: the primary clustering strategy (the external
TF-IDF + KMeans capability, not part of this repository's sources). The spec
describes it as vectorizing all quotes and partitioning them with a fixed
seed; after fitting on the batch, each quote's label is the index of its
nearest centroid, a function of the batch and of the quote's own text.
`assign` abstracts that fitted per-quote labelling. -/
def primaryCluster (assign : List String → String → Nat)
    (quotes : List String) : List Nat :=
  quotes.map (assign quotes)

/-- `Validation_Agent._cluster_quotes`: empty input yields `[]`; otherwise
the primary strategy when the capability is available (`some assign`), and
the fallback on any failure (`none`). -/
def cluster_quotes (primary : Option (List String → String → Nat))
    (quotes : List String) : List Nat :=
  if quotes = [] then []
  else
    match primary with
    | some assign => primaryCluster assign quotes
    | none => clusterFallback quotes

/-- A feedback note. The constructors model the two f-strings appended to
`feedback_log`: `"Dropped outdated: {timestamp} -> {quote[:60]}"` and
`"Filtered neutral: {quote[:60]}"`, each carrying the interpolated data. -/
inductive FeedbackRecord where
  | outdated (timestamp : PyDatetime) (quotePrefix : String)
  | neutral (quotePrefix : String)
  deriving Repr, DecidableEq

/-- Python `quote[:60]`. -/
def quotePrefix60 (q : String) : String :=
  String.mk (q.toList.take 60)

/-- The filtering loop of `validate_results`: normalize each item (skip when
unusable), drop stale entries with an `outdated` note, drop non-frustration
entries with a `neutral` note, keep the rest in order. Returns the
survivors and the feedback log. -/
def validateLoop (parse : String → Option PyDatetime) (now : Int)
    (maxAgeMonths : Int) : List RawEntry → List NormalizedEntry × List FeedbackRecord
  | [] => ([], [])
  | item :: rest =>
    let r := validateLoop parse now maxAgeMonths rest
    match normalize parse now item with
    | none => r
    | some e =>
      if ¬ passes_recency now maxAgeMonths e then
        (r.1, .outdated e.timestamp (quotePrefix60 e.quote) :: r.2)
      else if ¬ is_frustration e.quote then
        (r.1, .neutral (quotePrefix60 e.quote) :: r.2)
      else (e :: r.1, r.2)

/-- A validated pain point: a normalized entry plus its cluster id
(`e['cluster'] = c`). -/
structure ValidatedPainPoint where
  quote : String
  source : String
  url : Option String
  timestamp : PyDatetime
  cluster : Nat
  deriving Repr, DecidableEq

/-- `for e, c in zip(normalized, clusters): e['cluster'] = c`. -/
def attachClusters (ns : List NormalizedEntry) (cs : List Nat) :
    List ValidatedPainPoint :=
  ns.zipWith (fun e c => ⟨e.quote, e.source, e.url, e.timestamp, c⟩) cs

/-- The deduplication loop of `validate_results`: keep an entry iff its quote
was not seen before, tracking seen quotes. -/
def dedupLoop (seen : List String) : List ValidatedPainPoint → List ValidatedPainPoint
  | [] => []
  | e :: rest =>
    if e.quote ∈ seen then dedupLoop seen rest
    else e :: dedupLoop (e.quote :: seen) rest

/-- The cluster-tagged survivor list of one engine invocation (the state of
`normalized` after the `zip` loop, before deduplication). -/
def taggedSurvivors (parse : String → Option PyDatetime)
    (primary : Option (List String → String → Nat))
    (maxAgeOpt : Option Int) (now : Int) (raw : List RawEntry) :
    List ValidatedPainPoint :=
  let ns := (validateLoop parse now (effectiveMaxAge maxAgeOpt) raw).1
  attachClusters ns (cluster_quotes primary (ns.map (·.quote)))

/-- `self.validated_details`: the deduplicated, cluster-tagged records. -/
def validated_details (parse : String → Option PyDatetime)
    (primary : Option (List String → String → Nat))
    (maxAgeOpt : Option Int) (now : Int) (raw : List RawEntry) :
    List ValidatedPainPoint :=
  dedupLoop [] (taggedSurvivors parse primary maxAgeOpt now raw)

/-- `self.feedback_log` after one invocation. -/
def feedback_log (parse : String → Option PyDatetime)
    (maxAgeOpt : Option Int) (now : Int) (raw : List RawEntry) :
    List FeedbackRecord :=
  (validateLoop parse now (effectiveMaxAge maxAgeOpt) raw).2

/-- The return value of `Validation_Agent.validate_results`:
`[e['quote'] for e in validated]`. -/
def validate_results (parse : String → Option PyDatetime)
    (primary : Option (List String → String → Nat))
    (maxAgeOpt : Option Int) (now : Int) (raw : List RawEntry) : List String :=
  (validated_details parse primary maxAgeOpt now raw).map (·.quote)

/-- A concrete external parser that fails on every string (the environment
with neither pandas nor a matching `strptime` format). -/
def parseNone : String → Option PyDatetime := fun _ => none

/-! ## Helper lemmas -/

/-- `matchToksAux` is fuel-irrelevant once the fuel exceeds
`ts.length + cs.length`: every recursive step shortens pattern or text. -/
theorem matchToksAux_fuel :
    ∀ (f g : Nat) (ts : List RTok) (prev : Option Char) (cs : List Char),
      ts.length + cs.length < f → ts.length + cs.length < g →
      matchToksAux f ts prev cs = matchToksAux g ts prev cs := by
  intro f
  induction f with
  | zero => intro g ts prev cs hf _; exact absurd hf (Nat.not_lt_zero _)
  | succ f ih =>
    intro g ts prev cs hf hg
    cases g with
    | zero => exact absurd hg (Nat.not_lt_zero _)
    | succ g =>
      cases ts with
      | nil => simp [matchToksAux]
      | cons t ts' =>
        simp only [List.length_cons] at hf hg
        cases t with
        | bound =>
          simp only [matchToksAux]
          rw [ih g ts' prev cs (by omega) (by omega)]
        | lit c =>
          cases cs with
          | nil => simp [matchToksAux]
          | cons d cs' =>
            simp only [List.length_cons] at hf hg
            simp only [matchToksAux]
            rw [ih g ts' (some d) cs' (by omega) (by omega)]
        | dotStar =>
          cases cs with
          | nil =>
            simp only [matchToksAux]
            rw [ih g ts' prev [] (by simp; omega) (by simp; omega)]
          | cons d cs' =>
            simp only [List.length_cons] at hf hg
            simp only [matchToksAux]
            rw [ih g ts' prev (d :: cs') (by simp; omega) (by simp; omega),
              ih g (.dotStar :: ts') (some d) cs' (by simp; omega) (by simp; omega)]

/-- `_parse_timestamp` always returns a tz-aware value. -/
theorem parse_timestamp_aware (parse : String → Option PyDatetime) (now : Int)
    (ts : Option String) : (parse_timestamp parse now ts).aware = true := by
  unfold parse_timestamp
  split
  · rfl
  · split
    · rfl
    · split
      · rfl
      · split
        · assumption
        · rfl

/-- The recency test compares `now - timestamp` with
`max_age_months * 30` days; the tz-awareness normalization does not change
the instant. -/
theorem passes_recency_iff (now m : Int) (e : NormalizedEntry) :
    passes_recency now m e = true ↔
      now - e.timestamp.instant ≤ m * 30 * daySeconds := by
  obtain ⟨q, s, u, t⟩ := e
  obtain ⟨i, a⟩ := t
  cases a <;> simp [passes_recency]

/-- The survivors of the filtering loop, compositionally: an item survives
iff it normalizes, passes recency and matches a frustration pattern. -/
theorem validateLoop_fst (parse : String → Option PyDatetime) (now m : Int) :
    ∀ raw : List RawEntry,
      (validateLoop parse now m raw).1 = raw.filterMap (fun item =>
        match normalize parse now item with
        | none => none
        | some e =>
          if ¬ passes_recency now m e then none
          else if ¬ is_frustration e.quote then none
          else some e) := by
  intro raw
  induction raw with
  | nil => rfl
  | cons item rest ih =>
    simp only [validateLoop, List.filterMap_cons]
    cases hn : normalize parse now item <;> simp only [hn]
    · exact ih
    · split
      · simpa using ih
      · split
        · simpa using ih
        · simp [ih]

/-- The feedback log of the filtering loop, compositionally: each item
contributes no note when unusable or surviving, exactly one `outdated` note
when stale, and exactly one `neutral` note when not frustrated. -/
theorem validateLoop_snd (parse : String → Option PyDatetime) (now m : Int) :
    ∀ raw : List RawEntry,
      (validateLoop parse now m raw).2 = raw.flatMap (fun item =>
        match normalize parse now item with
        | none => []
        | some e =>
          if ¬ passes_recency now m e then
            [.outdated e.timestamp (quotePrefix60 e.quote)]
          else if ¬ is_frustration e.quote then
            [.neutral (quotePrefix60 e.quote)]
          else []) := by
  intro raw
  induction raw with
  | nil => rfl
  | cons item rest ih =>
    simp only [validateLoop, List.flatMap_cons]
    cases hn : normalize parse now item <;> simp only [hn]
    · simpa using ih
    · split
      · simp [ih]
      · split
        · simp [ih]
        · simpa using ih

/-- Deduplication never emits an entry whose quote was already seen. -/
theorem dedupLoop_not_seen :
    ∀ (l : List ValidatedPainPoint) (seen : List String)
      (e : ValidatedPainPoint), e ∈ dedupLoop seen l → e.quote ∉ seen := by
  intro l
  induction l with
  | nil => intro seen e h; simp [dedupLoop] at h
  | cons a rest ih =>
    intro seen e h
    by_cases ha : a.quote ∈ seen
    · simp only [dedupLoop, if_pos ha] at h
      exact ih seen e h
    · simp only [dedupLoop, if_neg ha, List.mem_cons] at h
      rcases h with h | h
      · subst h; exact ha
      · have := ih (a.quote :: seen) e h
        intro hc
        exact this (List.mem_cons_of_mem _ hc)

/-- The deduplicated output has pairwise-distinct quotes. -/
theorem dedupLoop_nodup :
    ∀ (l : List ValidatedPainPoint) (seen : List String),
      ((dedupLoop seen l).map (fun e => e.quote)).Nodup := by
  intro l
  induction l with
  | nil => intro seen; simp [dedupLoop]
  | cons a rest ih =>
    intro seen
    by_cases ha : a.quote ∈ seen
    · simp only [dedupLoop, if_pos ha]; exact ih seen
    · simp only [dedupLoop, if_neg ha, List.map_cons, List.nodup_cons]
      refine ⟨?_, ih (a.quote :: seen)⟩
      intro hc
      rcases List.mem_map.mp hc with ⟨e, he, hq⟩
      have := dedupLoop_not_seen rest (a.quote :: seen) e he
      exact this (hq ▸ List.mem_cons_self _ _)

/-- The deduplicated output is an ordered sublist of the input. -/
theorem dedupLoop_sublist :
    ∀ (l : List ValidatedPainPoint) (seen : List String),
      (dedupLoop seen l).Sublist l := by
  intro l
  induction l with
  | nil => intro seen; simp [dedupLoop]
  | cons a rest ih =>
    intro seen
    by_cases ha : a.quote ∈ seen
    · simp only [dedupLoop, if_pos ha]
      exact (ih seen).cons a
    · simp only [dedupLoop, if_neg ha]
      exact (ih (a.quote :: seen)).cons₂ a

/-- Every unseen input quote survives deduplication. -/
theorem dedupLoop_mem_quote :
    ∀ (l : List ValidatedPainPoint) (seen : List String)
      (e : ValidatedPainPoint), e ∈ l → e.quote ∉ seen →
      e.quote ∈ (dedupLoop seen l).map (fun x => x.quote) := by
  intro l
  induction l with
  | nil => intro seen e h; simp at h
  | cons a rest ih =>
    intro seen e h hq
    rcases List.mem_cons.mp h with h | h
    · subst h
      simp only [dedupLoop, if_neg hq, List.map_cons]
      exact List.mem_cons_self _ _
    · by_cases ha : a.quote ∈ seen
      · simp only [dedupLoop, if_pos ha]
        exact ih seen e h hq
      · simp only [dedupLoop, if_neg ha, List.map_cons]
        by_cases hq' : e.quote = a.quote
        · exact hq' ▸ List.mem_cons_self _ _
        · refine List.mem_cons_of_mem _ ?_
          exact ih (a.quote :: seen) e h (by
            intro hc
            rcases List.mem_cons.mp hc with hc | hc
            · exact hq' hc
            · exact hq hc)

/-- The first occurrence of each quote is kept verbatim by deduplication. -/
theorem dedupLoop_first_occurrence :
    ∀ (l : List ValidatedPainPoint) (seen : List String) (i : Nat)
      (h : i < l.length),
      (l.get ⟨i, h⟩).quote ∉ (l.take i).map (fun e => e.quote) →
      (l.get ⟨i, h⟩).quote ∉ seen →
      l.get ⟨i, h⟩ ∈ dedupLoop seen l := by
  intro l
  induction l with
  | nil => intro seen i h; simp at h
  | cons a rest ih =>
    intro seen i h hfirst hseen
    cases i with
    | zero =>
      simp only [List.get] at hfirst hseen ⊢
      simp only [dedupLoop, if_neg hseen]
      exact List.mem_cons_self _ _
    | succ i =>
      simp only [List.get, List.take_succ_cons, List.map_cons,
        List.mem_cons, not_or] at hfirst hseen ⊢
      obtain ⟨hne, hfirst⟩ := hfirst
      by_cases ha : a.quote ∈ seen
      · simp only [dedupLoop, if_pos ha]
        exact ih seen i _ hfirst hseen
      · simp only [dedupLoop, if_neg ha]
        refine List.mem_cons_of_mem _ ?_
        exact ih (a.quote :: seen) i _ hfirst (by
          intro hc
          rcases List.mem_cons.mp hc with hc | hc
          · exact hne hc
          · exact hseen hc)

/-- Merging tokens into a bucket keeps the number of buckets. -/
theorem mergeAt_length (tokens : List String) :
    ∀ (i : Nat) (buckets : List (List String)),
      (mergeAt tokens i buckets).length = buckets.length := by
  intro i
  induction i with
  | zero => intro buckets; cases buckets <;> simp [mergeAt]
  | succ i ih =>
    intro buckets
    cases buckets with
    | nil => simp [mergeAt]
    | cons b bs => simp [mergeAt, ih]

/-- The fallback loop returns one cluster id per quote. -/
theorem fallbackLoop_length :
    ∀ (quotes : List String) (buckets : List (List String)),
      (fallbackLoop buckets quotes).length = quotes.length := by
  intro quotes
  induction quotes with
  | nil => intro buckets; simp [fallbackLoop]
  | cons q rest ih =>
    intro buckets
    simp only [fallbackLoop]
    cases hf : findBucket (quoteTokens q) buckets <;> simp [ih]

/-- A found bucket index is a valid index. -/
theorem findBucket_lt (tokens : List String) :
    ∀ (buckets : List (List String)) (i : Nat),
      findBucket tokens buckets = some i → i < buckets.length := by
  intro buckets
  induction buckets with
  | nil => intro i h; simp [findBucket] at h
  | cons b bs ih =>
    intro i h
    simp only [findBucket] at h
    split at h
    · cases h; simp
    · cases hf : findBucket tokens bs with
      | none => rw [hf] at h; simp at h
      | some j =>
        rw [hf] at h
        simp only [Option.map_some'] at h
        cases h
        have := ih j hf
        simp only [List.length_cons]
        omega

/-- Every fallback cluster id is bounded by the number of pre-existing
buckets plus the quote's position (with no initial buckets: by its
position); in particular ids are valid bucket indices. -/
theorem fallbackLoop_le :
    ∀ (quotes : List String) (buckets : List (List String)) (i : Nat),
      (fallbackLoop buckets quotes).getD i 0 ≤ buckets.length + i := by
  intro quotes
  induction quotes with
  | nil => intro buckets i; simp [fallbackLoop]
  | cons q rest ih =>
    intro buckets i
    simp only [fallbackLoop]
    cases hf : findBucket (quoteTokens q) buckets with
    | some j =>
      cases i with
      | zero =>
        simpa using Nat.le_of_lt (findBucket_lt _ _ _ hf)
      | succ i =>
        simp only [List.getD_cons_succ]
        calc (fallbackLoop (mergeAt (quoteTokens q) j buckets) rest).getD i 0
            ≤ (mergeAt (quoteTokens q) j buckets).length + i := ih _ i
          _ = buckets.length + i := by rw [mergeAt_length]
          _ ≤ buckets.length + (i + 1) := by omega
    | none =>
      cases i with
      | zero => simp
      | succ i =>
        simp only [List.getD_cons_succ]
        calc (fallbackLoop (buckets ++ [quoteTokens q]) rest).getD i 0
            ≤ (buckets ++ [quoteTokens q]).length + i := ih _ i
          _ = buckets.length + (i + 1) := by simp; omega

/-- Each fallback cluster id is at most the quote's position in the batch. -/
theorem clusterFallback_le (quotes : List String) (i : Nat) :
    (clusterFallback quotes).getD i 0 ≤ i := by
  simpa using fallbackLoop_le quotes [] i

/-- `_cluster_quotes` always returns one id per quote, under either
strategy. -/
theorem cluster_quotes_length
    (primary : Option (List String → String → Nat)) (quotes : List String) :
    (cluster_quotes primary quotes).length = quotes.length := by
  unfold cluster_quotes
  split
  · simp_all
  · cases primary with
    | none => simpa using fallbackLoop_length quotes []
    | some assign => simp [primaryCluster]

/-- Attaching clusters preserves the quotes (when the id list is parallel,
which `cluster_quotes` guarantees). -/
theorem attachClusters_map_quote :
    ∀ (ns : List NormalizedEntry) (cs : List Nat), cs.length = ns.length →
      (attachClusters ns cs).map (fun e => e.quote) =
        ns.map (fun e => e.quote) := by
  intro ns
  induction ns with
  | nil => intro cs h; simp [attachClusters]
  | cons e rest ih =>
    intro cs h
    cases cs with
    | nil => simp at h
    | cons c cs' =>
      simp only [List.length_cons] at h
      simp only [attachClusters, List.zipWith_cons_cons, List.map_cons]
      rw [show List.zipWith _ rest cs' = attachClusters rest cs' from rfl,
        ih cs' (by omega)]

/-- The quotes of the cluster-tagged survivor list are exactly the quotes of
the filter survivors, in order. -/
theorem taggedSurvivors_map_quote (parse : String → Option PyDatetime)
    (primary : Option (List String → String → Nat))
    (maxAgeOpt : Option Int) (now : Int) (raw : List RawEntry) :
    (taggedSurvivors parse primary maxAgeOpt now raw).map (fun e => e.quote) =
      ((validateLoop parse now (effectiveMaxAge maxAgeOpt) raw).1).map
        (fun e => e.quote) := by
  unfold taggedSurvivors
  rw [attachClusters_map_quote]
  simp [cluster_quotes_length]

/-- An option holding a non-empty string yields a non-empty `getD`. -/
theorem truthy_getD (q : Option String) (h : truthy q = true) : q.getD "" ≠ "" := by
  cases q with
  | none => simp [truthy] at h
  | some s => simpa [truthy] using h

/-! ## Claims -/

/-- C1, counterexample: `validate_results` does not return the
ValidatedPainPoint records — two batches whose records differ in their
`source` field produce the same return value, so the return value cannot
carry the record fields; it is the list of quote strings. -/
theorem C1_counterexample :
    validate_results parseNone none none 0
        [.dict { text := some "broken stuff", source := some "a" }] =
      validate_results parseNone none none 0
        [.dict { text := some "broken stuff", source := some "b" }] ∧
    validated_details parseNone none none 0
        [.dict { text := some "broken stuff", source := some "a" }] ≠
      validated_details parseNone none none 0
        [.dict { text := some "broken stuff", source := some "b" }] := by
  exact ⟨by decide, by decide⟩

/-- C1, amended: `validate_results` returns the deduplicated
first-occurrence-ordered list of quote strings, while the ordered
ValidatedPainPoint records (quote, source, url, timestamp, cluster id) are
stored on the instance as `validated_details`: the return value is the
quote projection of those records, and the records are an ordered sublist
of the cluster-tagged survivors. -/
theorem C1_validate_results_output (parse : String → Option PyDatetime)
    (primary : Option (List String → String → Nat)) (maxAgeOpt : Option Int)
    (now : Int) (raw : List RawEntry) :
    validate_results parse primary maxAgeOpt now raw =
      (validated_details parse primary maxAgeOpt now raw).map
        (fun e => e.quote) ∧
    (validated_details parse primary maxAgeOpt now raw).Sublist
      (taggedSurvivors parse primary maxAgeOpt now raw) :=
  ⟨rfl, dedupLoop_sublist _ _⟩

/-- C2, counterexample: under the fallback strategy two identical surviving
quotes can receive different cluster ids. The quote has no token of length
at least 4, so each occurrence opens a fresh bucket: ids 0 and 1. -/
theorem C2_counterexample :
    (taggedSurvivors parseNone none none 0
        [.str "can\x27t a b", .str "can\x27t a b"]).map
        (fun e => (e.quote, e.cluster)) =
      [("can\x27t a b", 0), ("can\x27t a b", 1)] := by
  decide

/-- C2, amended: every cluster id assigned is a non-negative integer
(under the fallback it is additionally at most the quote's position), the
cluster list is parallel to the surviving-quote list under either strategy,
and under the primary strategy any two surviving entries with identical
quote text receive the same cluster id; under the fallback strategy this
consistency can fail. -/
theorem C2_cluster_ids :
    (∀ (primary : Option (List String → String → Nat))
        (quotes : List String),
        (cluster_quotes primary quotes).length = quotes.length) ∧
    (∀ (primary : Option (List String → String → Nat))
        (quotes : List String) (c : Nat),
        c ∈ cluster_quotes primary quotes → 0 ≤ (c : Int)) ∧
    (∀ (quotes : List String) (i : Nat),
        (clusterFallback quotes).getD i 0 ≤ i) ∧
    (∀ (assign : List String → String → Nat) (quotes : List String)
        (i j : Nat), i < quotes.length → j < quotes.length →
        quotes.getD i "" = quotes.getD j "" →
        (primaryCluster assign quotes).getD i 0 =
          (primaryCluster assign quotes).getD j 0) := by
  refine ⟨cluster_quotes_length, ?_, clusterFallback_le, ?_⟩
  · intro primary quotes c _
    exact Int.natCast_nonneg c
  · intro assign quotes i j hi hj hq
    have hi' : i < (quotes.map (assign quotes)).length := by simpa using hi
    have hj' : j < (quotes.map (assign quotes)).length := by simpa using hj
    unfold primaryCluster
    rw [List.getD_eq_getElem _ _ hi', List.getD_eq_getElem _ _ hj',
      List.getElem_map, List.getElem_map]
    rw [List.getD_eq_getElem _ _ hi, List.getD_eq_getElem _ _ hj] at hq
    rw [hq]

/-- C2, witness for the amended claim: the primary strategy gives the two
occurrences of an identical quote the same id. -/
theorem C2_witness :
    (primaryCluster (fun _ q => q.length) ["abcd", "abcd"]).getD 0 0 =
      (primaryCluster (fun _ q => q.length) ["abcd", "abcd"]).getD 1 0 :=
  C2_cluster_ids.2.2.2 (fun _ q => q.length) ["abcd", "abcd"] 0 1
    (by decide) (by decide) (by decide)

/-- C3, counterexample: a bare empty-string input is normalized with an
empty quote, violating the non-empty-quote invariant for bare-string
inputs. -/
theorem C3_counterexample :
    normalize parseNone 0 (.str "") =
      some { quote := "", source := "unknown", url := none,
             timestamp := { instant := 0, aware := true } } := by
  decide

/-- C3, amended: every NormalizedEntry has a populated tz-aware (UTC)
timestamp (defaulted to the current instant when absent or unparsable);
every NormalizedEntry produced from a structured record has a non-empty
quote, while a bare-string input is passed through as the quote unchanged
and may be empty. -/
theorem C3_normalized_invariant (parse : String → Option PyDatetime)
    (now : Int) (item : RawEntry) (e : NormalizedEntry)
    (h : normalize parse now item = some e) :
    e.timestamp.aware = true ∧
    (∀ d : RawDict, item = .dict d → e.quote ≠ "") := by
  constructor
  · cases item with
    | str s =>
      simp only [normalize, Option.some_inj] at h
      rw [← h]
      rfl
    | dict d =>
      simp only [normalize] at h
      split at h
      · simp only [Option.some_inj] at h
        rw [← h]
        exact parse_timestamp_aware parse now _
      · exact absurd h (by simp)
  · intro d hd
    subst hd
    simp only [normalize] at h
    split at h
    · simp only [Option.some_inj] at h
      rw [← h]
      exact truthy_getD _ (by assumption)
    · exact absurd h (by simp)

/-- C3, witness for the amended claim, at a structured record with a text
field and no timestamp. -/
theorem C3_witness :
    ({ quote := "x", source := "unknown", url := none,
       timestamp := { instant := 0, aware := true } } :
        NormalizedEntry).timestamp.aware = true ∧
    ({ quote := "x", source := "unknown", url := none,
       timestamp := { instant := 0, aware := true } } :
        NormalizedEntry).quote ≠ "" := by
  have h := C3_normalized_invariant parseNone 0 (.dict { text := some "x" })
    { quote := "x", source := "unknown", url := none,
      timestamp := { instant := 0, aware := true } } (by decide)
  exact ⟨h.1, h.2 { text := some "x" } rfl⟩

/-- C4: a structured entry whose timestamp string fails every parsing
attempt is normalized with timestamp equal to the current instant and is
accepted by the recency filter for any non-negative `max_age_months`;
the parse failure produces a value, never an error. -/
theorem C4_unparsable_timestamp (parse : String → Option PyDatetime)
    (now v : Int) (hv : 0 ≤ v) (d : RawDict) (s : String)
    (hts : pyOr d.timestamp (pyOr d.date d.created_at) = some s)
    (hs : s ≠ "") (hp : parse s = none) (e : NormalizedEntry)
    (he : normalize parse now (.dict d) = some e) :
    e.timestamp = nowUtc now ∧
    passes_recency now (effectiveMaxAge (some v)) e = true := by
  have hts' : parse_timestamp parse now
      (pyOr d.timestamp (pyOr d.date d.created_at)) = nowUtc now := by
    rw [hts]
    unfold parse_timestamp
    simp [truthy, hs, hp]
  simp only [normalize] at he
  split at he
  · simp only [Option.some_inj] at he
    have ht : e.timestamp = nowUtc now := by rw [← he]; exact hts'
    refine ⟨ht, ?_⟩
    rw [passes_recency_iff, ht]
    have heff : 0 ≤ effectiveMaxAge (some v) := by
      simp only [effectiveMaxAge]
      split <;> omega
    have hpos : 0 ≤ effectiveMaxAge (some v) * 30 * daySeconds :=
      mul_nonneg (mul_nonneg heff (by norm_num)) (by norm_num [daySeconds])
    simpa [nowUtc] using hpos
  · exact absurd he (by simp)

/-- C4, witness: an entry with text `"hello"` and unparsable timestamp
`"garbage"` gets timestamp `now` and passes the recency filter with
`max_age_months = 0`. -/
theorem C4_witness :
    ({ quote := "hello", source := "unknown", url := none,
       timestamp := { instant := 5, aware := true } } :
        NormalizedEntry).timestamp = nowUtc 5 ∧
    passes_recency 5 (effectiveMaxAge (some 0))
      { quote := "hello", source := "unknown", url := none,
        timestamp := { instant := 5, aware := true } } = true :=
  C4_unparsable_timestamp parseNone 5 0 (by decide)
    { text := some "hello", timestamp := some "garbage" } "garbage"
    (by decide) (by decide) (by decide)
    { quote := "hello", source := "unknown", url := none,
      timestamp := { instant := 5, aware := true } } (by decide)

/-- C5: deduplication keeps exactly the first occurrence of each exact
quote string: the output quotes are pairwise distinct, every surviving
quote is represented, each first occurrence is kept verbatim, and the
feedback log is exactly what the filtering stages produced (deduplication
appends nothing). -/
theorem C5_deduplication (parse : String → Option PyDatetime)
    (primary : Option (List String → String → Nat)) (maxAgeOpt : Option Int)
    (now : Int) (raw : List RawEntry) :
    ((validated_details parse primary maxAgeOpt now raw).map
        (fun e => e.quote)).Nodup ∧
    (∀ e ∈ taggedSurvivors parse primary maxAgeOpt now raw,
        e.quote ∈ (validated_details parse primary maxAgeOpt now raw).map
          (fun x => x.quote)) ∧
    (∀ (i : Nat) (h : i < (taggedSurvivors parse primary maxAgeOpt now raw).length),
        ((taggedSurvivors parse primary maxAgeOpt now raw).get ⟨i, h⟩).quote ∉
          ((taggedSurvivors parse primary maxAgeOpt now raw).take i).map
            (fun e => e.quote) →
        (taggedSurvivors parse primary maxAgeOpt now raw).get ⟨i, h⟩ ∈
          validated_details parse primary maxAgeOpt now raw) ∧
    feedback_log parse maxAgeOpt now raw =
      (validateLoop parse now (effectiveMaxAge maxAgeOpt) raw).2 := by
  refine ⟨dedupLoop_nodup _ _, ?_, ?_, rfl⟩
  · intro e he
    exact dedupLoop_mem_quote _ [] e he (by simp)
  · intro i h hfirst
    exact dedupLoop_first_occurrence _ [] i h hfirst (by simp)

/-- C5, witness: with two occurrences of the same quote, the first tagged
survivor is kept in the validated output. -/
theorem C5_witness :
    (taggedSurvivors parseNone none none 0
        [.str "it is broken", .str "it is broken"]).get ⟨0, by decide⟩ ∈
      validated_details parseNone none none 0
        [.str "it is broken", .str "it is broken"] :=
  (C5_deduplication parseNone none none 0
      [.str "it is broken", .str "it is broken"]).2.2.1 0 (by decide)
    (by decide)

/-- C6: the recency filter accepts an entry exactly when its age
(`UTC now` at filter time minus its timestamp) is at most
`max_age_months` times exactly 30 days, and each recency rejection
contributes exactly one `outdated` feedback note carrying the entry's
timestamp and the 60-character quote prefix (and nothing else). -/
theorem C6_recency_filter (parse : String → Option PyDatetime)
    (maxAgeOpt : Option Int) (now : Int) (raw : List RawEntry) :
    (∀ (m : Int) (e : NormalizedEntry),
        passes_recency now m e = true ↔
          now - e.timestamp.instant ≤ m * 30 * daySeconds) ∧
    feedback_log parse maxAgeOpt now raw = raw.flatMap (fun item =>
      match normalize parse now item with
      | none => []
      | some e =>
        if ¬ passes_recency now (effectiveMaxAge maxAgeOpt) e then
          [.outdated e.timestamp (quotePrefix60 e.quote)]
        else if ¬ is_frustration e.quote then
          [.neutral (quotePrefix60 e.quote)]
        else []) :=
  ⟨fun m e => passes_recency_iff now m e, validateLoop_snd parse now _ raw⟩

/-- C7: the frustration classifier accepts a quote iff at least one of the
fixed patterns matches the lower-cased text; a normalized entry that passes
recency but matches no pattern is dropped with exactly one `neutral` note;
and on Scenario A's three recent inputs exactly the first and third quotes
survive while the second leaves one neutral note. -/
theorem C7_frustration_classifier :
    (∀ text : String, is_frustration text = true ↔
        ∃ pat ∈ FRUSTRATION_PATTERNS, reSearch pat (lowerStr text) = true) ∧
    (∀ (parse : String → Option PyDatetime) (now m : Int) (item : RawEntry)
        (e : NormalizedEntry), normalize parse now item = some e →
        passes_recency now m e = true → is_frustration e.quote = false →
        validateLoop parse now m [item] =
          ([], [.neutral (quotePrefix60 e.quote)])) ∧
    validate_results parseNone none none 0
        [.str "I hate waiting on hold", .str "Great service, thanks!",
          .str "so slow to load"] =
      ["I hate waiting on hold", "so slow to load"] ∧
    feedback_log parseNone none 0
        [.str "I hate waiting on hold", .str "Great service, thanks!",
          .str "so slow to load"] =
      [.neutral "Great service, thanks!"] := by
  refine ⟨?_, ?_, by decide, by decide⟩
  · intro text
    simp [is_frustration, List.any_eq_true]
  · intro parse now m item e he hrec hfr
    simp [validateLoop, he, hrec, hfr]

/-- C7, witness: the neutral-note branch at Scenario A's second input. -/
theorem C7_witness :
    validateLoop parseNone 0 24 [.str "Great service, thanks!"] =
      ([], [.neutral (quotePrefix60 "Great service, thanks!")]) :=
  C7_frustration_classifier.2.1 parseNone 0 24 (.str "Great service, thanks!")
    { quote := "Great service, thanks!", source := "unknown", url := none,
      timestamp := { instant := 0, aware := true } }
    (by decide) (by decide) (by decide)

/-- C8: the fallback clustering strategy totally returns one cluster id per
surviving quote, in order, and on Scenario C's three inputs (primary
strategy unavailable) the first two quotes share a cluster id while the
third gets a distinct one. -/
theorem C8_fallback_clustering :
    (∀ quotes : List String,
        (cluster_quotes none quotes).length = quotes.length) ∧
    cluster_quotes none ["chat support is slow", "support chat crashes often",
        "billing page is confusing"] = [0, 0, 1] :=
  ⟨fun quotes => cluster_quotes_length none quotes, by decide⟩

/-- C9: constructing the engine with `max_age_months` equal to 0 (or None)
yields the default 24-month threshold, so an entry dated within 24 months
still passes instead of every dated entry being rejected. -/
theorem C9_zero_max_age_defaults :
    effectiveMaxAge (some 0) = 24 ∧ effectiveMaxAge none = 24 ∧
    (∀ (now : Int) (e : NormalizedEntry),
        now - e.timestamp.instant ≤ 24 * 30 * daySeconds →
        passes_recency now (effectiveMaxAge (some 0)) e = true) := by
  refine ⟨rfl, rfl, ?_⟩
  intro now e h
  rw [passes_recency_iff]
  simpa [effectiveMaxAge] using h

/-- C9, witness: with `max_age_months = 0`, an entry one day old passes. -/
theorem C9_witness :
    passes_recency 86400 (effectiveMaxAge (some 0))
      { quote := "q", source := "s", url := none,
        timestamp := { instant := 0, aware := true } } = true :=
  C9_zero_max_age_defaults.2.2 86400
    { quote := "q", source := "s", url := none,
      timestamp := { instant := 0, aware := true } } (by decide)

/-- C10: an entry whose timestamp lies in the future of `now` has negative
age and passes the recency filter for every non-negative
`max_age_months`. -/
theorem C10_future_timestamps_pass (now v : Int) (e : NormalizedEntry)
    (hv : 0 ≤ v) (hfut : now < e.timestamp.instant) :
    passes_recency now (effectiveMaxAge (some v)) e = true := by
  rw [passes_recency_iff]
  have heff : 0 ≤ effectiveMaxAge (some v) := by
    simp only [effectiveMaxAge]
    split <;> omega
  have hpos : 0 ≤ effectiveMaxAge (some v) * 30 * daySeconds :=
    mul_nonneg (mul_nonneg heff (by norm_num)) (by norm_num [daySeconds])
  omega

/-- C10, witness: a one-second-in-the-future timestamp passes with
`max_age_months = 7`. -/
theorem C10_witness :
    passes_recency 0 (effectiveMaxAge (some 7))
      { quote := "q", source := "s", url := none,
        timestamp := { instant := 1, aware := true } } = true :=
  C10_future_timestamps_pass 0 7
    { quote := "q", source := "s", url := none,
      timestamp := { instant := 1, aware := true } }
    (by decide) (by decide)

end PainMining
